import Mathlib

/-!
# Verification of the MultiQC Picard MarkDuplicates module

Shallow embedding of `multiqc/picard/__init__.py`: the log Extractor
(`parse_picard_dupMetrics`), the report-absence signal of
`MultiqcModule.__init__`, and the Aggregator (`picard_stats_table` and the
derived-field loop at the top of `mark_duplicates_plot`).

Modelling choices: lines and tokens are lists of characters; Python dicts
keyed by strings are insertion-ordered association lists with
replace-or-append assignment; Python floats are exact rationals (values of
successfully coerced tokens are kept in the symbolic form `partsToRat …`);
Python exceptions are explicit error values (`Except` / an `Option` error
component where partial mutations matter).
-/

namespace Picard

/-- A line (or token) of log text. -/
abbrev Line := List Char

/-- A metric value: numeric (a Python float, modelled as an exact rational) or
the raw string token when numeric coercion fails. -/
inductive MetricValue where
  | num (q : ℚ)
  | str (s : Line)
deriving DecidableEq

/-- Returns `true` exactly on numeric metric values. -/
def MetricValue.isNum : MetricValue → Bool
  | .num _ => true
  | .str _ => false

/-- The `SampleMetrics` map: field name → value, the embedding of one
per-sample Python dict. -/
abbrev SampleMetrics := List (Line × MetricValue)

/-- The `MetricsBySample` map: sample identifier → SampleMetrics, the
embedding of `self.picard_dupMetrics_data`. -/
abbrev MetricsBySample := List (Line × SampleMetrics)

/-- Python `d[k]` as an option: the binding of the first occurrence of `k`. -/
def dlookup {V : Type} : List (Line × V) → Line → Option V
  | [], _ => none
  | (k, v) :: rest, k2 => if k = k2 then some v else dlookup rest k2

/-- Replace every binding of key `k` (at most one in a well-formed map) by
`(k, v)`, in place. -/
def dreplace {V : Type} : List (Line × V) → Line → V → List (Line × V)
  | [], _, _ => []
  | (k1, v1) :: rest, k, v =>
    if k1 = k then (k, v) :: dreplace rest k v
    else (k1, v1) :: dreplace rest k v

/-- Python `d[k] = v`: replace the binding in place when `k` is already
present, else append a new binding at the end. -/
def dinsert {V : Type} (m : List (Line × V)) (k : Line) (v : V) : List (Line × V) :=
  if (dlookup m k).isSome then dreplace m k v
  else m ++ [(k, v)]

/-- Does `l` start with the pattern `pat`? -/
def startsWithL : List Char → List Char → Bool
  | [], _ => true
  | _ :: _, [] => false
  | p :: ps, c :: cs => p == c && startsWithL ps cs

/-- Python `pat in l`: substring test. -/
def containsSub (pat : List Char) : List Char → Bool
  | [] => pat.isEmpty
  | c :: cs => startsWithL pat (c :: cs) || containsSub pat cs

/-- Python `l.split("\t")`: split at every tab, empty pieces kept
(`"".split` gives one empty piece). -/
def splitTab : Line → List Line
  | [] => [[]]
  | c :: cs =>
    if c = '\t' then [] :: splitTab cs
    else
      match splitTab cs with
      | t :: ts => (c :: t) :: ts
      | [] => [[c]]

/-- POSIX `os.path.basename`: the part of a POSIX path after the last `/`. -/
def basename (p : Line) : Line :=
  p.foldl (fun acc c => if c = '/' then [] else acc ++ [c]) []

/-- The longest leading run of decimal digits of a token, and the rest. -/
def takeDigits : Line → Line × Line
  | [] => ([], [])
  | c :: cs =>
    if c.isDigit then
      match takeDigits cs with
      | (d, r) => (c :: d, r)
    else ([], c :: cs)

/-- The numeric value of a run of decimal digits. -/
def digitsToNat (ds : Line) : Nat :=
  ds.foldl (fun a c => 10 * a + (c.toNat - 48)) 0

/-- An optional leading sign of a numeric token: whether it is `-`, and the
rest of the token. -/
def splitSign : Line → Bool × Line
  | '-' :: t => (true, t)
  | '+' :: t => (false, t)
  | t => (false, t)

/-- Syntactic recognition of the decimal/scientific text accepted by Python
`float`: optional sign, an integer part and an optional `.`-separated
fractional part (at least one digit between them), an optional `e`/`E`
exponent with optional sign and at least one digit, and nothing trailing.
Returns `(negative, integer part, fractional part, fractional length,
exponent)`. -/
def parseFloatParts (s : Line) : Option (Bool × Nat × Nat × Nat × Int) :=
  match splitSign s with
  | (neg, s1) =>
    match takeDigits s1 with
    | (ip, s2) =>
      match (match s2 with
             | '.' :: t => takeDigits t
             | t => ([], t)) with
      | (fp, s3) =>
        if ip.isEmpty && fp.isEmpty then none
        else
          match s3 with
          | [] => some (neg, digitsToNat ip, digitsToNat fp, fp.length, 0)
          | c :: t =>
            if c = 'e' ∨ c = 'E' then
              match splitSign t with
              | (eneg, t1) =>
                match takeDigits t1 with
                | (ed, t2) =>
                  if ed.isEmpty ∨ ¬ t2.isEmpty then none
                  else some (neg, digitsToNat ip, digitsToNat fp, fp.length,
                    if eneg then -(digitsToNat ed : Int) else (digitsToNat ed : Int))
            else none

/-- The exact rational value of a recognised numeric token. -/
def partsToRat : Bool × Nat × Nat × Nat × Int → ℚ
  | (neg, ip, fp, fl, ex) =>
    (if neg then -1 else 1) * ((ip : ℚ) + (fp : ℚ) / 10 ^ fl) * 10 ^ ex

/-- Python `float(s)` on decimal/scientific text, with the exact rational
value; `none` models the `ValueError` raised on unparsable text. -/
def parseFloat (s : Line) : Option ℚ :=
  (parseFloatParts s).map partsToRat

/-- The value coercion of the extractor:
`try: float(vals[i]) except ValueError: vals[i]`. -/
def coerce (tok : Line) : MetricValue :=
  match parseFloatParts tok with
  | some p => .num (partsToRat p)
  | none => .str tok

/-- The record marker `picard.sam.MarkDuplicates`. -/
def markerMD : Line := "picard.sam.MarkDuplicates".data

/-- The token `INPUT`. -/
def tokenINPUT : Line := "INPUT".data

/-- The metrics-class marker `picard.sam.DuplicationMetrics`. -/
def markerDM : Line := "picard.sam.DuplicationMetrics".data

/-- The metrics-header marker `## METRICS CLASS`. -/
def markerMC : Line := "## METRICS CLASS".data

/-- The literal head of the pattern `INPUT=\[([^\]]+)\]`. -/
def patINPUT : Line := "INPUT=[".data

/-- One attempt of the regex `INPUT=\[([^\]]+)\]` anchored at the head of
`l`: the literal `INPUT=[`, then a nonempty run of non-`]` characters
(the captured group), then `]`. -/
def inputMatchAt (l : Line) : Option Line :=
  if startsWithL patINPUT l then
    let rest := l.drop patINPUT.length
    let grp := rest.takeWhile (fun c => c != ']')
    if grp.isEmpty then none
    else
      match rest.drop grp.length with
      | ']' :: _ => some grp
      | _ => none
  else none

/-- Model of `re.search("INPUT=\[([^\]]+)\]", l)`: try the pattern at each position
from the left, returning the captured group of the leftmost match. -/
def inputSearch : Line → Option Line
  | [] => none
  | c :: cs =>
    match inputMatchAt (c :: cs) with
    | some g => some g
    | none => inputSearch cs

/-- The "new log starting" branch of `parse_picard_dupMetrics` for one line:
when the record marker and `INPUT` both occur, the pending sample is reset;
then, on a successful `INPUT=[...]` search, the pending sample becomes the
cleaned basename of the captured path and a fresh empty dict is assigned for
it (a duplicate is only logged, which is not modelled). -/
def inputStep (clean : Line → Line) (sname : Option Line) (data : MetricsBySample)
    (l : Line) : Option Line × MetricsBySample :=
  if containsSub markerMD l && containsSub tokenINPUT l then
    match inputSearch l with
    | some path => (some (clean (basename path)), dinsert data (clean (basename path)) [])
    | none => (none, data)
  else (sname, data)

/-- Exceptions the extractor can raise and does not catch: `IndexError` from
`vals[i]` when the value row is shorter than the header row, and
`StopIteration` from `next()` when the document ends before the header or
value row. -/
inductive PErr where
  | indexError
  | stopIteration
deriving DecidableEq

/-- The loop `for i, k in enumerate(keys): ...[k] = float(vals[i]) / vals[i]`, the
header/value zip of the extractor; the `IndexError` from `vals[i]` is left
uncaught (only `ValueError` is caught). -/
def zipInto (sm : SampleMetrics) : List Line → List Line → Except PErr SampleMetrics
  | [], _ => .ok sm
  | _ :: _, [] => .error .indexError
  | k :: ks, v :: vs => zipInto (dinsert sm k (coerce v)) ks vs

/-- The line loop of `parse_picard_dupMetrics`: run the `INPUT` branch on the
line; then, with a pending sample, a line carrying the metrics-class and
metrics-header markers makes the next two lines the tab-separated header and
value rows, zipped into the pending sample's dict, after which the pending
sample is cleared. -/
def parseLoop (clean : Line → Line) :
    List Line → Option Line → MetricsBySample → Except PErr MetricsBySample
  | [], _, data => .ok data
  | l :: rest, sname0, data0 =>
    match inputStep clean sname0 data0 l with
    | (sname, data) =>
      match sname with
      | some sn =>
        if containsSub markerDM l && containsSub markerMC l then
          match rest with
          | kl :: vl :: rest2 =>
            match zipInto ((dlookup data sn).getD []) (splitTab kl) (splitTab vl) with
            | .ok sm => parseLoop clean rest2 none (dinsert data sn sm)
            | .error e => .error e
          | _ => .error .stopIteration
        else parseLoop clean rest (some sn) data
      | none => parseLoop clean rest none data

/-- Function `parse_picard_dupMetrics` on one document: the pending sample starts
unset, the accumulated map is shared across documents. -/
def parse_picard_dupMetrics (clean : Line → Line) (doc : List Line)
    (data : MetricsBySample) : Except PErr MetricsBySample :=
  parseLoop clean doc none data

/-- The report-loading loop of `MultiqcModule.__init__` over the (already
content-filtered) documents found. -/
def parseDocs (clean : Line → Line) :
    List (List Line) → MetricsBySample → Except PErr MetricsBySample
  | [], data => .ok data
  | d :: ds, data =>
    match parse_picard_dupMetrics clean d data with
    | .ok data2 => parseDocs clean ds data2
    | .error e => .error e

/-- The extractor over all documents, starting from the empty map. -/
def parseAll (clean : Line → Line) (docs : List (List Line)) :
    Except PErr MetricsBySample :=
  parseDocs clean docs []

/-- The check `if len(self.picard_dupMetrics_data) == 0: raise UserWarning`,
the report-absence signal. -/
def raisesUserWarning (data : MetricsBySample) : Bool :=
  data.length == 0

/-- Exceptions of the aggregation step: `KeyError` from `data[sn][k]` on a
missing field, and the error raised by arithmetic on / formatting of a
non-float value. -/
inductive AggErr where
  | keyError
  | typeError
deriving DecidableEq

/-- Python `data[k]`, raising `KeyError` when the field is absent. -/
def getVal (sm : SampleMetrics) (k : Line) : Except AggErr MetricValue :=
  match dlookup sm k with
  | some v => .ok v
  | none => .error .keyError

/-- Python subtraction of two metric values: defined on floats, an error
otherwise. -/
def subVals : MetricValue → MetricValue → Except AggErr MetricValue
  | .num a, .num b => .ok (.num (a - b))
  | .num _, .str _ => .error .typeError
  | .str _, .num _ => .error .typeError
  | .str _, .str _ => .error .typeError

/-- One derivation statement `data[sn][tgt] = data[sn][s1] - data[sn][s2]`:
the two lookups and the subtraction are evaluated first; on success the
target field is assigned, on an exception the dict is left unchanged and the
exception propagates. -/
def deriveStmt (sm : SampleMetrics) (tgt s1 s2 : Line) : SampleMetrics × Option AggErr :=
  match getVal sm s1 with
  | .error e => (sm, some e)
  | .ok a =>
    match getVal sm s2 with
    | .error e => (sm, some e)
    | .ok b =>
      match subVals a b with
      | .error e => (sm, some e)
      | .ok v => (dinsert sm tgt v, none)

/-- Field name `UNPAIRED_READS_EXAMINED`. -/
def UNPAIRED_READS_EXAMINED : Line := "UNPAIRED_READS_EXAMINED".data

/-- Field name `UNPAIRED_READ_DUPLICATES`. -/
def UNPAIRED_READ_DUPLICATES : Line := "UNPAIRED_READ_DUPLICATES".data

/-- Field name `READ_PAIR_DUPLICATES`. -/
def READ_PAIR_DUPLICATES : Line := "READ_PAIR_DUPLICATES".data

/-- Field name `READ_PAIR_OPTICAL_DUPLICATES`. -/
def READ_PAIR_OPTICAL_DUPLICATES : Line := "READ_PAIR_OPTICAL_DUPLICATES".data

/-- Field name `READ_PAIRS_EXAMINED`. -/
def READ_PAIRS_EXAMINED : Line := "READ_PAIRS_EXAMINED".data

/-- Derived field name `UNPAIRED_READ_UNIQUE`. -/
def UNPAIRED_READ_UNIQUE : Line := "UNPAIRED_READ_UNIQUE".data

/-- Derived field name `READ_PAIR_NOT_OPTICAL_DUPLICATES`. -/
def READ_PAIR_NOT_OPTICAL_DUPLICATES : Line := "READ_PAIR_NOT_OPTICAL_DUPLICATES".data

/-- Derived field name `READ_PAIR_UNIQUE`. -/
def READ_PAIR_UNIQUE : Line := "READ_PAIR_UNIQUE".data

/-- Field name `PERCENT_DUPLICATION`. -/
def PERCENT_DUPLICATION : Line := "PERCENT_DUPLICATION".data

/-- The three derivation statements of `mark_duplicates_plot` for one
sample, in source order, stopping at the first exception. -/
def deriveSample (sm : SampleMetrics) : SampleMetrics × Option AggErr :=
  match deriveStmt sm UNPAIRED_READ_UNIQUE UNPAIRED_READS_EXAMINED UNPAIRED_READ_DUPLICATES with
  | (sm1, some e) => (sm1, some e)
  | (sm1, none) =>
    match deriveStmt sm1 READ_PAIR_NOT_OPTICAL_DUPLICATES READ_PAIR_DUPLICATES READ_PAIR_OPTICAL_DUPLICATES with
    | (sm2, some e) => (sm2, some e)
    | (sm2, none) => deriveStmt sm2 READ_PAIR_UNIQUE READ_PAIRS_EXAMINED READ_PAIR_DUPLICATES

/-- The per-sample loop of `mark_duplicates_plot`'s derived-field step:
samples in map order; an uncaught exception aborts the whole loop, keeping
every mutation already made. -/
def deriveAll : MetricsBySample → MetricsBySample × Option AggErr
  | [] => ([], none)
  | (sn, sm) :: rest =>
    match deriveSample sm with
    | (sm2, none) =>
      match deriveAll rest with
      | (rest2, e) => ((sn, sm2) :: rest2, e)
    | (sm2, some e) => ((sn, sm2) :: rest, some e)

/-- The View A scalar of `picard_stats_table` for one sample: the number
formatted by `'{:.1f}%'.format(data['PERCENT_DUPLICATION']*100)`
(`KeyError` on a missing field; formatting a non-float raises). -/
def percentScalar (sm : SampleMetrics) : Except AggErr ℚ :=
  match getVal sm PERCENT_DUPLICATION with
  | .ok (.num q) => .ok (q * 100)
  | .ok (.str _) => .error .typeError
  | .error e => .error e

/-- The row loop of `picard_stats_table`: one scalar per sample, keyed by the
sample identifier. -/
def picard_stats_table : MetricsBySample → Except AggErr (List (Line × ℚ))
  | [] => .ok []
  | (sn, sm) :: rest =>
    match percentScalar sm with
    | .error e => .error e
    | .ok q =>
      match picard_stats_table rest with
      | .error e => .error e
      | .ok rows => .ok ((sn, q) :: rows)

/-- Spec side, for the refinement claim on the extractor: the positional
(index-based) zip of header tokens to coerced value tokens, as a field map. -/
def specZip (keys vals : List Line) : SampleMetrics :=
  (keys.zip vals).foldl (fun m kv => dinsert m kv.1 (coerce kv.2)) []

/-- Looking up the replaced key after a `dreplace` that found it. -/
theorem dlookup_dreplace_self {V : Type} (k : Line) (v : V) :
    ∀ m : List (Line × V), (dlookup m k).isSome →
      dlookup (dreplace m k v) k = some v := by
  intro m
  induction m with
  | nil => intro h; simp [dlookup] at h
  | cons p rest ih =>
    obtain ⟨k1, v1⟩ := p
    intro h
    by_cases hk : k1 = k
    · simp [dreplace, hk, dlookup]
    · simp only [dlookup, if_neg hk] at h
      simp [dreplace, hk, dlookup, ih h]

/-- Looking up a different key after a `dreplace`. -/
theorem dlookup_dreplace_ne {V : Type} (k k2 : Line) (v : V) (hne : k ≠ k2) :
    ∀ m : List (Line × V), dlookup (dreplace m k v) k2 = dlookup m k2 := by
  intro m
  induction m with
  | nil => rfl
  | cons p rest ih =>
    obtain ⟨k1, v1⟩ := p
    by_cases hk : k1 = k
    · subst hk
      have hne2 : ¬ (k1 = k2) := hne
      simp [dreplace, dlookup, hne2, ih]
    · simp [dreplace, hk, dlookup, ih]

/-- Looking up the appended key. -/
theorem dlookup_append_self {V : Type} (k : Line) (v : V) :
    ∀ m : List (Line × V), dlookup m k = none →
      dlookup (m ++ [(k, v)]) k = some v := by
  intro m
  induction m with
  | nil => intro _; simp [dlookup]
  | cons p rest ih =>
    obtain ⟨k1, v1⟩ := p
    intro h
    by_cases hk : k1 = k
    · simp [dlookup, hk] at h
    · simp only [dlookup, if_neg hk] at h
      simpa [dlookup, hk] using ih h

/-- Looking up a different key after an append. -/
theorem dlookup_append_ne {V : Type} (k k2 : Line) (v : V) (hne : k ≠ k2) :
    ∀ m : List (Line × V), dlookup (m ++ [(k, v)]) k2 = dlookup m k2 := by
  intro m
  induction m with
  | nil => simp [dlookup, hne]
  | cons p rest ih =>
    obtain ⟨k1, v1⟩ := p
    by_cases hk : k1 = k2
    · simp [dlookup, hk]
    · simp [dlookup, hk, ih]

/-- Assigning a key makes it present with the assigned value. -/
theorem dlookup_dinsert_self {V : Type} (m : List (Line × V)) (k : Line) (v : V) :
    dlookup (dinsert m k v) k = some v := by
  unfold dinsert
  by_cases h : (dlookup m k).isSome
  · simpa [h] using dlookup_dreplace_self k v m h
  · have hnone : dlookup m k = none := Option.not_isSome_iff_eq_none.mp h
    simpa [h] using dlookup_append_self k v m hnone

/-- Assigning a key leaves every other key's binding unchanged. -/
theorem dlookup_dinsert_ne {V : Type} (m : List (Line × V)) (k k2 : Line) (v : V)
    (hne : k ≠ k2) : dlookup (dinsert m k v) k2 = dlookup m k2 := by
  unfold dinsert
  by_cases h : (dlookup m k).isSome
  · simpa [h] using dlookup_dreplace_ne k k2 v hne m
  · simpa [h] using dlookup_append_ne k k2 v hne m

/-- An assignment never removes a key from the map. -/
theorem dlookup_dinsert_isSome {V : Type} (m : List (Line × V)) (k k2 : Line) (v : V)
    (h : (dlookup m k2).isSome) : (dlookup (dinsert m k v) k2).isSome := by
  by_cases hk : k = k2
  · subst hk
    simp [dlookup_dinsert_self]
  · rw [dlookup_dinsert_ne m k k2 v hk]
    exact h

/-- When a key is absent every binding has a different key. -/
theorem dlookup_none_forall {V : Type} (k : Line) :
    ∀ m : List (Line × V), dlookup m k = none → ∀ p ∈ m, p.1 ≠ k := by
  intro m
  induction m with
  | nil => intro _ p hp; simp at hp
  | cons q rest ih =>
    obtain ⟨k1, v1⟩ := q
    intro h p hp
    by_cases hk : k1 = k
    · simp [dlookup, hk] at h
    · simp only [dlookup, if_neg hk] at h
      rcases List.mem_cons.mp hp with h1 | h1
      · subst h1; exact hk
      · exact ih h p h1

/-- A successful lookup is a membership. -/
theorem dlookup_mem {V : Type} (k : Line) (v : V) :
    ∀ m : List (Line × V), dlookup m k = some v → (k, v) ∈ m := by
  intro m
  induction m with
  | nil => intro h; simp [dlookup] at h
  | cons q rest ih =>
    obtain ⟨k1, v1⟩ := q
    intro h
    by_cases hk : k1 = k
    · subst hk
      simp [dlookup] at h
      subst h
      exact List.mem_cons_self _ _
    · simp only [dlookup, if_neg hk] at h
      exact List.mem_cons_of_mem _ (ih h)

/-- Members of a map after a replacement: an old binding or the new one. -/
theorem mem_dreplace {V : Type} (k : Line) (v : V) :
    ∀ m : List (Line × V), ∀ p ∈ dreplace m k v, p ∈ m ∨ p = (k, v) := by
  intro m
  induction m with
  | nil => intro p hp; simp [dreplace] at hp
  | cons q rest ih =>
    obtain ⟨k1, v1⟩ := q
    intro p hp
    by_cases hk : k1 = k
    · rw [dreplace, if_pos hk] at hp
      rcases List.mem_cons.mp hp with h1 | h1
      · exact Or.inr h1
      · rcases ih p h1 with h2 | h2
        · exact Or.inl (List.mem_cons_of_mem _ h2)
        · exact Or.inr h2
    · rw [dreplace, if_neg hk] at hp
      rcases List.mem_cons.mp hp with h1 | h1
      · exact Or.inl (h1 ▸ List.mem_cons_self _ _)
      · rcases ih p h1 with h2 | h2
        · exact Or.inl (List.mem_cons_of_mem _ h2)
        · exact Or.inr h2

/-- Members of a map after an assignment: an old binding or the new one. -/
theorem mem_dinsert {V : Type} (m : List (Line × V)) (k : Line) (v : V) :
    ∀ p ∈ dinsert m k v, p ∈ m ∨ p = (k, v) := by
  intro p hp
  unfold dinsert at hp
  by_cases h : (dlookup m k).isSome
  · rw [if_pos h] at hp
    exact mem_dreplace k v m p hp
  · rw [if_neg h] at hp
    rcases List.mem_append.mp hp with h1 | h1
    · exact Or.inl h1
    · exact Or.inr (List.mem_singleton.mp h1)

/-- Replacing a key twice keeps only the second replacement. -/
theorem dreplace_dreplace {V : Type} (k : Line) (v w : V) :
    ∀ m : List (Line × V), dreplace (dreplace m k v) k w = dreplace m k w := by
  intro m
  induction m with
  | nil => rfl
  | cons q rest ih =>
    obtain ⟨k1, v1⟩ := q
    by_cases hk : k1 = k
    · simp [dreplace, hk, ih]
    · simp [dreplace, hk, ih]

/-- Replacing a key absent from the prefix only rewrites the appended binding. -/
theorem dreplace_append {V : Type} (k : Line) (v w : V) :
    ∀ m : List (Line × V), (∀ p ∈ m, p.1 ≠ k) →
      dreplace (m ++ [(k, v)]) k w = m ++ [(k, w)] := by
  intro m
  induction m with
  | nil => intro _; simp [dreplace]
  | cons q rest ih =>
    obtain ⟨k1, v1⟩ := q
    intro h
    have hk : k1 ≠ k := h (k1, v1) (List.mem_cons_self _ _)
    have ih2 := ih (fun p hp => h p (List.mem_cons_of_mem _ hp))
    simp only [List.cons_append, dreplace, if_neg hk, List.append_eq, ih2]

/-- Unfolding of `dinsert` when the key is present. -/
theorem dinsert_of_present {V : Type} (m : List (Line × V)) (k : Line) (v : V)
    (h : (dlookup m k).isSome) : dinsert m k v = dreplace m k v := by
  unfold dinsert
  rw [if_pos h]

/-- Unfolding of `dinsert` when the key is absent. -/
theorem dinsert_of_absent {V : Type} (m : List (Line × V)) (k : Line) (v : V)
    (h : dlookup m k = none) : dinsert m k v = m ++ [(k, v)] := by
  unfold dinsert
  simp [h]

/-- Reassigning the same key collapses to the second assignment. -/
theorem dinsert_dinsert_self {V : Type} (m : List (Line × V)) (k : Line) (v w : V) :
    dinsert (dinsert m k v) k w = dinsert m k w := by
  have hpresent : (dlookup (dinsert m k v) k).isSome := by
    simp [dlookup_dinsert_self]
  rw [dinsert_of_present (dinsert m k v) k w hpresent]
  by_cases h : (dlookup m k).isSome
  · rw [dinsert_of_present m k v h, dinsert_of_present m k w h]
    exact dreplace_dreplace k v w m
  · have hnone : dlookup m k = none := Option.not_isSome_iff_eq_none.mp h
    rw [dinsert_of_absent m k v hnone, dinsert_of_absent m k w hnone]
    exact dreplace_append k v w m (dlookup_none_forall k m hnone)
/-- The pure fold that `zipInto` computes when no index error occurs. -/
def zipFold (sm : SampleMetrics) (keys vals : List Line) : SampleMetrics :=
  (keys.zip vals).foldl (fun m kv => dinsert m kv.1 (coerce kv.2)) sm

/-- The spec-side zip is the fold from the empty map. -/
theorem specZip_eq_zipFold (keys vals : List Line) :
    specZip keys vals = zipFold [] keys vals := rfl

/-- With enough value tokens, the header/value zip succeeds and stores the
positional zip. -/
theorem zipInto_ok : ∀ (keys vals : List Line) (sm : SampleMetrics),
    keys.length ≤ vals.length → zipInto sm keys vals = .ok (zipFold sm keys vals) := by
  intro keys
  induction keys with
  | nil => intro vals sm _; rfl
  | cons k ks ih =>
    intro vals sm hlen
    cases vals with
    | nil => simp at hlen
    | cons v vs =>
      have hlen2 : ks.length ≤ vs.length := by
        simp only [List.length_cons] at hlen
        omega
      exact ih vs (dinsert sm k (coerce v)) hlen2

/-- With a value row shorter than the header row, the zip raises `IndexError`. -/
theorem zipInto_indexError : ∀ (keys vals : List Line) (sm : SampleMetrics),
    vals.length < keys.length → zipInto sm keys vals = .error .indexError := by
  intro keys
  induction keys with
  | nil => intro vals sm h; simp at h
  | cons k ks ih =>
    intro vals sm h
    cases vals with
    | nil => rfl
    | cons v vs =>
      have h2 : vs.length < ks.length := by
        simp only [List.length_cons] at h
        omega
      exact ih vs (dinsert sm k (coerce v)) h2

/-- Evaluation of the `INPUT` branch on a matching record-marker line. -/
theorem inputStep_match (clean : Line → Line) (sname : Option Line)
    (data : MetricsBySample) (l : Line) (path : Line)
    (h1 : containsSub markerMD l = true)
    (h2 : containsSub tokenINPUT l = true)
    (h3 : inputSearch l = some path) :
    inputStep clean sname data l =
      (some (clean (basename path)), dinsert data (clean (basename path)) []) := by
  unfold inputStep
  rw [h1, h2, h3]
  simp

/-- Evaluation of the `INPUT` branch on a line without both marker tokens. -/
theorem inputStep_skip (clean : Line → Line) (sname : Option Line)
    (data : MetricsBySample) (l : Line)
    (h : (containsSub markerMD l && containsSub tokenINPUT l) = false) :
    inputStep clean sname data l = (sname, data) := by
  unfold inputStep
  rw [h]
  simp

/-- Processing one well-formed record at the head of a document: the
marker/`INPUT` line sets the pending sample and assigns a fresh empty entry
for it, the metrics-class line consumes the header and value rows, and the
positional zip is stored under the sample, clearing the pending sample. -/
theorem parseLoop_record (clean : Line → Line) (l1 l2 kl vl : Line) (path : Line)
    (rest : List Line) (sname : Option Line) (data : MetricsBySample)
    (h1 : containsSub markerMD l1 = true)
    (h2 : containsSub tokenINPUT l1 = true)
    (h3 : inputSearch l1 = some path)
    (h4 : (containsSub markerDM l1 && containsSub markerMC l1) = false)
    (h5 : (containsSub markerMD l2 && containsSub tokenINPUT l2) = false)
    (h6 : containsSub markerDM l2 = true)
    (h7 : containsSub markerMC l2 = true)
    (hlen : (splitTab kl).length ≤ (splitTab vl).length) :
    parseLoop clean (l1 :: l2 :: kl :: vl :: rest) sname data =
      parseLoop clean rest none
        (dinsert data (clean (basename path)) (specZip (splitTab kl) (splitTab vl))) := by
  rw [parseLoop]
  rw [inputStep_match clean sname data l1 path h1 h2 h3]
  simp only [h4, Bool.false_eq_true, if_false]
  rw [parseLoop]
  rw [inputStep_skip clean (some (clean (basename path)))
    (dinsert data (clean (basename path)) []) l2 h5]
  simp only [h6, h7, Bool.and_self, if_true]
  rw [dlookup_dinsert_self]
  simp only [Option.getD_some]
  rw [zipInto_ok (splitTab kl) (splitTab vl) [] hlen]
  simp only [specZip_eq_zipFold]
  rw [dinsert_dinsert_self]

/-- Processing a record whose value row is shorter than its header row:
the zip raises an uncaught `IndexError`. -/
theorem parseLoop_record_short (clean : Line → Line) (l1 l2 kl vl : Line) (path : Line)
    (rest : List Line) (sname : Option Line) (data : MetricsBySample)
    (h1 : containsSub markerMD l1 = true)
    (h2 : containsSub tokenINPUT l1 = true)
    (h3 : inputSearch l1 = some path)
    (h4 : (containsSub markerDM l1 && containsSub markerMC l1) = false)
    (h5 : (containsSub markerMD l2 && containsSub tokenINPUT l2) = false)
    (h6 : containsSub markerDM l2 = true)
    (h7 : containsSub markerMC l2 = true)
    (hlen : (splitTab vl).length < (splitTab kl).length) :
    parseLoop clean (l1 :: l2 :: kl :: vl :: rest) sname data = .error .indexError := by
  rw [parseLoop]
  rw [inputStep_match clean sname data l1 path h1 h2 h3]
  simp only [h4, Bool.false_eq_true, if_false]
  rw [parseLoop]
  rw [inputStep_skip clean (some (clean (basename path)))
    (dinsert data (clean (basename path)) []) l2 h5]
  simp only [h6, h7, Bool.and_self, if_true]
  rw [dlookup_dinsert_self]
  simp only [Option.getD_some]
  rw [zipInto_indexError (splitTab kl) (splitTab vl) [] hlen]
/-- The `INPUT` branch never removes a sample from the map. -/
theorem inputStep_preserves (clean : Line → Line) (sname : Option Line)
    (data : MetricsBySample) (l : Line) (s : Line)
    (h : (dlookup data s).isSome) :
    (dlookup (inputStep clean sname data l).2 s).isSome := by
  unfold inputStep
  by_cases hc : (containsSub markerMD l && containsSub tokenINPUT l) = true
  · rw [if_pos hc]
    cases hs : inputSearch l with
    | some path =>
      simpa using dlookup_dinsert_isSome data (clean (basename path)) s [] h
    | none => simpa using h
  · simp only [hc, if_false]
    exact h

/-- The extractor's line loop never removes a sample from the map. -/
theorem parseLoop_preserves (clean : Line → Line) :
    ∀ (ls : List Line) (sname : Option Line) (data data2 : MetricsBySample),
      parseLoop clean ls sname data = .ok data2 →
      ∀ s, (dlookup data s).isSome → (dlookup data2 s).isSome := by
  intro ls sname data
  induction ls, sname, data using parseLoop.induct clean with
  | case1 data =>
    intro data2 h s hs
    rw [parseLoop] at h
    injection h with h
    exact h ▸ hs
  | case2 a b c d e f g h i j k l m =>
    intro data2 hp s hs
    rw [parseLoop, l] at hp
    simp only [f, if_true, k] at hp
    have h1 : (dlookup d s).isSome := by
      have h2 := inputStep_preserves clean b c a s hs
      rw [l] at h2
      exact h2
    exact m data2 hp s (dlookup_dinsert_isSome d e s j h1)
  | case3 l0 sname0 data0 data g hmc kl vl rest2 e hzip hstep =>
    intro data2 hp s hs
    rw [parseLoop, hstep] at hp
    simp [hmc, hzip] at hp
  | case4 l0 rest sname0 data0 data g hmc hshort hstep =>
    intro data2 hp s hs
    rcases rest with _ | ⟨x1, _ | ⟨x2, rest2⟩⟩
    · rw [parseLoop, hstep] at hp
      simp [hmc] at hp
    · rw [parseLoop, hstep] at hp
      simp [hmc] at hp
    · exact ((hshort x1 x2 rest2 rfl)).elim
  | case5 l0 rest sname0 data0 data g hmc hstep ih =>
    intro data2 hp s hs
    rw [parseLoop, hstep] at hp
    simp only [hmc, if_false] at hp
    have h1 : (dlookup data s).isSome := by
      have h2 := inputStep_preserves clean sname0 data0 l0 s hs
      rw [hstep] at h2
      exact h2
    exact ih data2 hp s h1
  | case6 l0 rest sname0 data0 data hstep ih =>
    intro data2 hp s hs
    rw [parseLoop, hstep] at hp
    have h1 : (dlookup data s).isSome := by
      have h2 := inputStep_preserves clean sname0 data0 l0 s hs
      rw [hstep] at h2
      exact h2
    exact ih data2 hp s h1

/-- The document loop never removes a sample from the map. -/
theorem parseDocs_preserves (clean : Line → Line) :
    ∀ (docs : List (List Line)) (data data2 : MetricsBySample),
      parseDocs clean docs data = .ok data2 →
      ∀ s, (dlookup data s).isSome → (dlookup data2 s).isSome := by
  intro docs
  induction docs with
  | nil =>
    intro data data2 h s hs
    rw [parseDocs] at h
    injection h with h
    exact h ▸ hs
  | cons d ds ih =>
    intro data data2 h s hs
    rw [parseDocs] at h
    cases hp : parse_picard_dupMetrics clean d data with
    | ok dmid =>
      rw [hp] at h
      have h1 := parseLoop_preserves clean d none data dmid hp s hs
      exact ih dmid data2 h s h1
    | error e =>
      rw [hp] at h
      simp at h
/-- A derivation statement with both source fields numeric: a plain
subtraction assigned to the target field, no exception. -/
theorem deriveStmt_ok (sm : SampleMetrics) (tgt s1 s2 : Line) (a b : ℚ)
    (ha : dlookup sm s1 = some (.num a)) (hb : dlookup sm s2 = some (.num b)) :
    deriveStmt sm tgt s1 s2 = (dinsert sm tgt (.num (a - b)), none) := by
  unfold deriveStmt getVal
  rw [ha, hb]
  rfl

/-- A derivation statement whose first source field is missing: `KeyError`,
nothing assigned. -/
theorem deriveStmt_err1 (sm : SampleMetrics) (tgt s1 s2 : Line)
    (ha : dlookup sm s1 = none) :
    deriveStmt sm tgt s1 s2 = (sm, some .keyError) := by
  unfold deriveStmt getVal
  rw [ha]

/-- A derivation statement whose second source field is missing: `KeyError`,
nothing assigned. -/
theorem deriveStmt_err2 (sm : SampleMetrics) (tgt s1 s2 : Line) (v : MetricValue)
    (ha : dlookup sm s1 = some v) (hb : dlookup sm s2 = none) :
    deriveStmt sm tgt s1 s2 = (sm, some .keyError) := by
  unfold deriveStmt getVal
  rw [ha, hb]

/-- The property that every value stored in a sample's map is numeric. -/
def numericOnly (sm : SampleMetrics) : Prop :=
  ∀ p ∈ sm, p.2.isNum = true

/-- In an all-numeric map every successful lookup is a number. -/
theorem numericOnly_lookup (sm : SampleMetrics) (k : Line) (v : MetricValue)
    (hnum : numericOnly sm) (h : dlookup sm k = some v) : ∃ q, v = .num q := by
  have hm := dlookup_mem k v sm h
  have h2 := hnum (k, v) hm
  cases v with
  | num q => exact ⟨q, rfl⟩
  | str s => simp [MetricValue.isNum] at h2

/-- Assigning a numeric value keeps a map all-numeric. -/
theorem numericOnly_dinsert (sm : SampleMetrics) (k : Line) (q : ℚ)
    (hnum : numericOnly sm) : numericOnly (dinsert sm k (.num q)) := by
  intro p hp
  rcases mem_dinsert sm k (.num q) p hp with h | h
  · exact hnum p h
  · rw [h]
    rfl
/-- Inversion of a successful derivation statement: both source fields were
numeric and the target was assigned their difference. -/
theorem deriveStmt_none_inv (sm sm1 : SampleMetrics) (tgt s1 s2 : Line)
    (h : deriveStmt sm tgt s1 s2 = (sm1, none)) :
    ∃ a b, dlookup sm s1 = some (.num a) ∧ dlookup sm s2 = some (.num b) ∧
      sm1 = dinsert sm tgt (.num (a - b)) := by
  unfold deriveStmt getVal at h
  cases o1 : dlookup sm s1 with
  | none => rw [o1] at h; simp at h
  | some v =>
    rw [o1] at h
    cases o2 : dlookup sm s2 with
    | none => rw [o2] at h; simp at h
    | some w =>
      rw [o2] at h
      cases v with
      | str t => cases w <;> simp [subVals] at h
      | num a =>
        cases w with
        | str t => simp [subVals] at h
        | num b =>
          simp only [subVals] at h
          injection h with h1 h2
          exact ⟨a, b, rfl, rfl, h1.symm⟩

/-- Inversion of a failing derivation statement over an all-numeric map: the
exception is a `KeyError`, the map is unchanged, and a source field was
missing. -/
theorem deriveStmt_some_inv_numeric (sm sm1 : SampleMetrics) (tgt s1 s2 : Line)
    (e : AggErr) (hnum : numericOnly sm)
    (h : deriveStmt sm tgt s1 s2 = (sm1, some e)) :
    sm1 = sm ∧ e = .keyError ∧ (dlookup sm s1 = none ∨ dlookup sm s2 = none) := by
  cases o1 : dlookup sm s1 with
  | none =>
    rw [deriveStmt_err1 sm tgt s1 s2 o1] at h
    injection h with h1 h2
    injection h2 with h2
    exact ⟨h1.symm, h2.symm, Or.inl rfl⟩
  | some v =>
    cases o2 : dlookup sm s2 with
    | none =>
      rw [deriveStmt_err2 sm tgt s1 s2 v o1 o2] at h
      injection h with h1 h2
      injection h2 with h2
      exact ⟨h1.symm, h2.symm, Or.inr rfl⟩
    | some w =>
      obtain ⟨a, rfl⟩ := numericOnly_lookup sm s1 v hnum o1
      obtain ⟨b, rfl⟩ := numericOnly_lookup sm s2 w hnum o2
      rw [deriveStmt_ok sm tgt s1 s2 a b o1 o2] at h
      injection h with h1 h2
      simp at h2

/-- The per-sample loop on a sample whose derivation fails: the loop stops
there, keeping the partial derivations, and the rest is untouched. -/
theorem deriveAll_cons_err (sn : Line) (sm : SampleMetrics) (rest : MetricsBySample)
    (e : AggErr) (h : (deriveSample sm).2 = some e) :
    deriveAll ((sn, sm) :: rest) = ((sn, (deriveSample sm).1) :: rest, some e) := by
  rcases hds : deriveSample sm with ⟨sm2, oe⟩
  rw [hds] at h
  rw [deriveAll, hds]
  cases oe with
  | none => simp at h
  | some e2 =>
    have he : e2 = e := by simpa using h
    subst he
    rfl

/-- The per-sample loop on a sample whose derivation succeeds: the derived
map is stored and the loop continues. -/
theorem deriveAll_cons_ok (sn : Line) (sm : SampleMetrics) (rest : MetricsBySample)
    (h : (deriveSample sm).2 = none) :
    deriveAll ((sn, sm) :: rest) =
      ((sn, (deriveSample sm).1) :: (deriveAll rest).1, (deriveAll rest).2) := by
  rcases hds : deriveSample sm with ⟨sm2, oe⟩
  rw [hds] at h
  rw [deriveAll, hds]
  cases oe with
  | some e2 => simp at h
  | none =>
    rcases hda : deriveAll rest with ⟨rest2, oe2⟩
    rfl

/-- One scalar row per sample: a sample with a numeric percent-duplication
field contributes exactly that value times `100`, under its identifier. -/
theorem stats_table_lookup :
    ∀ (data : MetricsBySample) (rows : List (Line × ℚ)) (sn : Line)
      (sm : SampleMetrics) (q : ℚ),
      picard_stats_table data = .ok rows →
      dlookup data sn = some sm →
      dlookup sm PERCENT_DUPLICATION = some (.num q) →
      dlookup rows sn = some (q * 100) := by
  intro data
  induction data with
  | nil =>
    intro rows sn sm q h hd hq
    simp [dlookup] at hd
  | cons p rest ih =>
    obtain ⟨sn1, sm1⟩ := p
    intro rows sn sm q h hd hq
    rw [picard_stats_table] at h
    cases hps : percentScalar sm1 with
    | error e => rw [hps] at h; simp at h
    | ok q1 =>
      rw [hps] at h
      cases hrest : picard_stats_table rest with
      | error e => rw [hrest] at h; simp at h
      | ok rows1 =>
        rw [hrest] at h
        have hrows : rows = (sn1, q1) :: rows1 := by
          have h2 : Except.ok (ε := AggErr) ((sn1, q1) :: rows1) = .ok rows := h
          injection h2 with h2
          exact h2.symm
        by_cases hsn : sn1 = sn
        · subst hsn
          have hsm : sm1 = sm := by
            simpa [dlookup] using hd
          subst hsm
          have hq1 : q1 = q * 100 := by
            unfold percentScalar getVal at hps
            rw [hq] at hps
            simpa using hps.symm
          subst hq1
          rw [hrows]
          simp [dlookup]
        · have hd2 : dlookup rest sn = some sm := by
            simpa [dlookup, hsn] using hd
          rw [hrows]
          have hgoal := ih rows1 sn sm q hrest hd2 hq
          simpa [dlookup, hsn] using hgoal
/-- The per-sample loop on a clean prefix, a failing sample, and a suffix:
the prefix is fully derived, the failing sample keeps only its partial
derivations, the suffix is untouched, and the exception propagates. -/
theorem deriveAll_abort (s : Line) (sm : SampleMetrics) (e : AggErr)
    (herr : (deriveSample sm).2 = some e) :
    ∀ (pre post : MetricsBySample),
      (∀ p ∈ pre, (deriveSample p.2).2 = none) →
      deriveAll (pre ++ (s, sm) :: post) =
        (pre.map (fun p => (p.1, (deriveSample p.2).1)) ++
          (s, (deriveSample sm).1) :: post, some e) := by
  intro pre
  induction pre with
  | nil =>
    intro post hpre
    simpa using deriveAll_cons_err s sm post e herr
  | cons p rest ih =>
    intro post hpre
    obtain ⟨sn1, sm1⟩ := p
    have h1 : (deriveSample sm1).2 = none := hpre (sn1, sm1) (List.mem_cons_self _ _)
    rw [List.cons_append, deriveAll_cons_ok sn1 sm1 _ h1]
    rw [ih post (fun p hp => hpre p (List.mem_cons_of_mem _ hp))]
    simp

/-- The identity sample-name sanitizer, standing in for the external
`clean_s_name` collaborator. -/
def cleanId : Line → Line := fun s => s

/-- Record-marker line of the concrete document `docA`. -/
def lineA1 : Line :=
  "INFO net.sf.picard.sam.MarkDuplicates INPUT=[/data/runA/A.bam] OUTPUT=[A.dedup.bam]".data

/-- Metrics-class line of the concrete document `docA`. -/
def lineA2 : Line := "## METRICS CLASS\tnet.sf.picard.sam.DuplicationMetrics".data

/-- Header row of the concrete document `docA`. -/
def lineAk : Line := "LIBRARY\tPERCENT_DUPLICATION".data

/-- Value row of the concrete document `docA`. -/
def lineAv : Line := "libA\t0.25".data

/-- Concrete document with one complete MarkDuplicates record for input
`/data/runA/A.bam`. -/
def docA : List Line := [lineA1, lineA2, lineAk, lineAv]

/-- Marker-only line: a record-marker/`INPUT` line with a matching path and
no metrics block following it. -/
def lineMark : Line := "picard.sam.MarkDuplicates INPUT=[/data/runA/A.bam]".data

/-- The sample identifier `docA` produces. -/
def nmA : Line := "A.bam".data

/-- The metrics `docA` yields for `A.bam`. -/
def smA : SampleMetrics :=
  [ ("LIBRARY".data, .str ("libA".data)),
    (PERCENT_DUPLICATION, .num (partsToRat (false, 0, 25, 2, 0))) ]

/-- Concrete document whose record-marker line carries `INPUT` but no
`INPUT=[...]` match, so no pending sample is set and the metrics block is
dropped. -/
def docBad : List Line :=
  [ "INFO net.sf.picard.sam.MarkDuplicates INPUT=B.bam OUTPUT=[B.dedup.bam]".data,
    "## METRICS CLASS\tnet.sf.picard.sam.DuplicationMetrics".data,
    "LIBRARY\tPERCENT_DUPLICATION".data,
    "libB\t0.5".data ]

/-- Concrete all-numeric sample metrics carrying the five source fields with
the values `100, 10, 40, 5, 200`. -/
def smFive : SampleMetrics :=
  [ (UNPAIRED_READS_EXAMINED, .num 100), (UNPAIRED_READ_DUPLICATES, .num 10),
    (READ_PAIR_DUPLICATES, .num 40), (READ_PAIR_OPTICAL_DUPLICATES, .num 5),
    (READ_PAIRS_EXAMINED, .num 200) ]

/-- Concrete sample metrics carrying the two unpaired-read source fields but
missing `READ_PAIR_DUPLICATES` (and the remaining source fields). -/
def smMissing : SampleMetrics :=
  [ (UNPAIRED_READS_EXAMINED, .num 100), (UNPAIRED_READ_DUPLICATES, .num 10) ]

/-- C1: for every sample whose metrics contain numeric values for the five
source fields, the derived-field step adds exactly the three fields
`UNPAIRED_READ_UNIQUE = UNPAIRED_READS_EXAMINED - UNPAIRED_READ_DUPLICATES`,
`READ_PAIR_NOT_OPTICAL_DUPLICATES = READ_PAIR_DUPLICATES -
READ_PAIR_OPTICAL_DUPLICATES` and `READ_PAIR_UNIQUE = READ_PAIRS_EXAMINED -
READ_PAIR_DUPLICATES`, computed in that order as plain subtractions with no
clamping to zero; on the inputs `100, 10, 40, 5, 200` the three derived
fields are appended with values `90, 35, 160`. -/
theorem C1_derived_fields (sm : SampleMetrics) (a b c d e : ℚ)
    (h1 : dlookup sm UNPAIRED_READS_EXAMINED = some (.num a))
    (h2 : dlookup sm UNPAIRED_READ_DUPLICATES = some (.num b))
    (h3 : dlookup sm READ_PAIR_DUPLICATES = some (.num c))
    (h4 : dlookup sm READ_PAIR_OPTICAL_DUPLICATES = some (.num d))
    (h5 : dlookup sm READ_PAIRS_EXAMINED = some (.num e)) :
    deriveSample sm =
      (dinsert (dinsert (dinsert sm UNPAIRED_READ_UNIQUE (.num (a - b)))
          READ_PAIR_NOT_OPTICAL_DUPLICATES (.num (c - d)))
        READ_PAIR_UNIQUE (.num (e - c)), none)
    ∧ deriveSample smFive =
      (smFive ++ [(UNPAIRED_READ_UNIQUE, .num 90),
        (READ_PAIR_NOT_OPTICAL_DUPLICATES, .num 35),
        (READ_PAIR_UNIQUE, .num 160)], none) := by
  have general : ∀ (sm' : SampleMetrics) (a' b' c' d' e' : ℚ),
      dlookup sm' UNPAIRED_READS_EXAMINED = some (.num a') →
      dlookup sm' UNPAIRED_READ_DUPLICATES = some (.num b') →
      dlookup sm' READ_PAIR_DUPLICATES = some (.num c') →
      dlookup sm' READ_PAIR_OPTICAL_DUPLICATES = some (.num d') →
      dlookup sm' READ_PAIRS_EXAMINED = some (.num e') →
      deriveSample sm' =
        (dinsert (dinsert (dinsert sm' UNPAIRED_READ_UNIQUE (.num (a' - b')))
            READ_PAIR_NOT_OPTICAL_DUPLICATES (.num (c' - d')))
          READ_PAIR_UNIQUE (.num (e' - c')), none) := by
    intro sm' a' b' c' d' e' g1 g2 g3 g4 g5
    have e1 := deriveStmt_ok sm' UNPAIRED_READ_UNIQUE UNPAIRED_READS_EXAMINED
      UNPAIRED_READ_DUPLICATES a' b' g1 g2
    have l3 : dlookup (dinsert sm' UNPAIRED_READ_UNIQUE (MetricValue.num (a' - b')))
        READ_PAIR_DUPLICATES = some (.num c') := by
      rw [dlookup_dinsert_ne _ _ _ _ (by decide)]
      exact g3
    have l4 : dlookup (dinsert sm' UNPAIRED_READ_UNIQUE (MetricValue.num (a' - b')))
        READ_PAIR_OPTICAL_DUPLICATES = some (.num d') := by
      rw [dlookup_dinsert_ne _ _ _ _ (by decide)]
      exact g4
    have e2 := deriveStmt_ok (dinsert sm' UNPAIRED_READ_UNIQUE (MetricValue.num (a' - b')))
      READ_PAIR_NOT_OPTICAL_DUPLICATES READ_PAIR_DUPLICATES READ_PAIR_OPTICAL_DUPLICATES
      c' d' l3 l4
    have l5 : dlookup (dinsert (dinsert sm' UNPAIRED_READ_UNIQUE (MetricValue.num (a' - b')))
        READ_PAIR_NOT_OPTICAL_DUPLICATES (MetricValue.num (c' - d')))
        READ_PAIRS_EXAMINED = some (.num e') := by
      rw [dlookup_dinsert_ne _ _ _ _ (by decide), dlookup_dinsert_ne _ _ _ _ (by decide)]
      exact g5
    have l6 : dlookup (dinsert (dinsert sm' UNPAIRED_READ_UNIQUE (MetricValue.num (a' - b')))
        READ_PAIR_NOT_OPTICAL_DUPLICATES (MetricValue.num (c' - d')))
        READ_PAIR_DUPLICATES = some (.num c') := by
      rw [dlookup_dinsert_ne _ _ _ _ (by decide)]
      exact l3
    have e3 := deriveStmt_ok (dinsert (dinsert sm' UNPAIRED_READ_UNIQUE
        (MetricValue.num (a' - b'))) READ_PAIR_NOT_OPTICAL_DUPLICATES
        (MetricValue.num (c' - d'))) READ_PAIR_UNIQUE READ_PAIRS_EXAMINED
      READ_PAIR_DUPLICATES e' c' l5 l6
    unfold deriveSample
    simp only [e1, e2, e3]
  refine ⟨general sm a b c d e h1 h2 h3 h4 h5, ?_⟩
  have h := general smFive 100 10 40 5 200 rfl rfl rfl rfl rfl
  rw [h, (show (100 : ℚ) - 10 = 90 by norm_num), (show (40 : ℚ) - 5 = 35 by norm_num),
    (show (200 : ℚ) - 40 = 160 by norm_num)]
  rfl
/-- Witness for C1 at the concrete sample `smFive`. -/
theorem C1_derived_fields_witness :
    dlookup smFive UNPAIRED_READS_EXAMINED = some (.num 100) ∧
    dlookup smFive UNPAIRED_READ_DUPLICATES = some (.num 10) ∧
    dlookup smFive READ_PAIR_DUPLICATES = some (.num 40) ∧
    dlookup smFive READ_PAIR_OPTICAL_DUPLICATES = some (.num 5) ∧
    dlookup smFive READ_PAIRS_EXAMINED = some (.num 200) ∧
    deriveSample smFive =
      (smFive ++ [(UNPAIRED_READ_UNIQUE, .num 90),
        (READ_PAIR_NOT_OPTICAL_DUPLICATES, .num 35),
        (READ_PAIR_UNIQUE, .num 160)], none) :=
  ⟨rfl, rfl, rfl, rfl, rfl,
    (C1_derived_fields smFive 100 10 40 5 200 rfl rfl rfl rfl rfl).2⟩

/-- A single-record document processed from an arbitrary accumulated map:
the record's sample is assigned the positional zip of its header and value
rows, replacing any earlier entry under the same identifier. -/
theorem parse_single_record (clean : Line → Line) (l1 l2 kl vl path : Line)
    (data : MetricsBySample)
    (h1 : containsSub markerMD l1 = true)
    (h2 : containsSub tokenINPUT l1 = true)
    (h3 : inputSearch l1 = some path)
    (h4 : (containsSub markerDM l1 && containsSub markerMC l1) = false)
    (h5 : (containsSub markerMD l2 && containsSub tokenINPUT l2) = false)
    (h6 : containsSub markerDM l2 = true)
    (h7 : containsSub markerMC l2 = true)
    (hlen : (splitTab kl).length ≤ (splitTab vl).length) :
    parse_picard_dupMetrics clean [l1, l2, kl, vl] data =
      .ok (dinsert data (clean (basename path)) (specZip (splitTab kl) (splitTab vl))) := by
  unfold parse_picard_dupMetrics
  rw [parseLoop_record clean l1 l2 kl vl path [] none data h1 h2 h3 h4 h5 h6 h7 hlen]
  rw [parseLoop]

/-- C2: a document consisting of a single well-formed record (marker/`INPUT`
line with a matching path, metrics-class/metrics-header line, tab-separated
header row, tab-separated value row with at least as many tokens) yields
exactly one sample whose metrics equal the positional zip of the header
tokens to the coerced value tokens. -/
theorem C2_single_record (clean : Line → Line) (l1 l2 kl vl path : Line)
    (h1 : containsSub markerMD l1 = true)
    (h2 : containsSub tokenINPUT l1 = true)
    (h3 : inputSearch l1 = some path)
    (h4 : (containsSub markerDM l1 && containsSub markerMC l1) = false)
    (h5 : (containsSub markerMD l2 && containsSub tokenINPUT l2) = false)
    (h6 : containsSub markerDM l2 = true)
    (h7 : containsSub markerMC l2 = true)
    (hlen : (splitTab kl).length ≤ (splitTab vl).length) :
    parse_picard_dupMetrics clean [l1, l2, kl, vl] [] =
      .ok [(clean (basename path), specZip (splitTab kl) (splitTab vl))] :=
  parse_single_record clean l1 l2 kl vl path [] h1 h2 h3 h4 h5 h6 h7 hlen

/-- Witness for C2 at the concrete document `docA`. -/
theorem C2_single_record_witness :
    containsSub markerMD lineA1 = true ∧
    containsSub tokenINPUT lineA1 = true ∧
    inputSearch lineA1 = some ("/data/runA/A.bam".data) ∧
    (containsSub markerDM lineA1 && containsSub markerMC lineA1) = false ∧
    (containsSub markerMD lineA2 && containsSub tokenINPUT lineA2) = false ∧
    containsSub markerDM lineA2 = true ∧
    containsSub markerMC lineA2 = true ∧
    (splitTab lineAk).length ≤ (splitTab lineAv).length ∧
    parse_picard_dupMetrics cleanId docA [] =
      .ok [(cleanId (basename ("/data/runA/A.bam".data)),
        specZip (splitTab lineAk) (splitTab lineAv))] :=
  ⟨rfl, rfl, rfl, rfl, rfl, rfl, rfl, by decide,
    C2_single_record cleanId lineA1 lineA2 lineAk lineAv ("/data/runA/A.bam".data)
      rfl rfl rfl rfl rfl rfl rfl (by decide)⟩

/-- C3 counterexample: a document whose only line is a record-marker/`INPUT`
line already creates a SampleMetrics entry (an empty one) in the top-level
map, although no header/value pair was ever parsed. -/
theorem C3_creation_counterexample :
    parse_picard_dupMetrics cleanId [lineMark] [] = .ok [(nmA, [])] ∧
    ([(nmA, [])] : MetricsBySample) ≠ [] :=
  ⟨rfl, by simp⟩

/-- C3 (amended): a SampleMetrics entry is created already at the moment the
record-marker/`INPUT` line matches — as a fresh empty map, with the sample
set pending — not first at the header/value parse; and an entry, once in the
map, is never deleted by any later processing (it can only be replaced). -/
theorem C3_lifecycle_amended (clean : Line → Line) (sname : Option Line)
    (data : MetricsBySample) (l path : Line)
    (h1 : containsSub markerMD l = true)
    (h2 : containsSub tokenINPUT l = true)
    (h3 : inputSearch l = some path) :
    dlookup (inputStep clean sname data l).2 (clean (basename path)) = some [] ∧
    (inputStep clean sname data l).1 = some (clean (basename path)) ∧
    (∀ (docs : List (List Line)) (d0 d1 : MetricsBySample) (s : Line),
      parseDocs clean docs d0 = .ok d1 →
      (dlookup d0 s).isSome → (dlookup d1 s).isSome) := by
  refine ⟨?_, ?_, fun docs d0 d1 s hp hs => parseDocs_preserves clean docs d0 d1 hp s hs⟩
  · rw [inputStep_match clean sname data l path h1 h2 h3]
    exact dlookup_dinsert_self data (clean (basename path)) []
  · rw [inputStep_match clean sname data l path h1 h2 h3]

/-- Witness for the amended C3 at the concrete marker-only line. -/
theorem C3_lifecycle_amended_witness :
    containsSub markerMD lineMark = true ∧
    containsSub tokenINPUT lineMark = true ∧
    inputSearch lineMark = some ("/data/runA/A.bam".data) ∧
    dlookup (inputStep cleanId none [] lineMark).2
      (cleanId (basename ("/data/runA/A.bam".data))) = some [] :=
  ⟨rfl, rfl, rfl,
    (C3_lifecycle_amended cleanId none [] lineMark ("/data/runA/A.bam".data)
      rfl rfl rfl).1⟩

/-- C4: numeric coercion of a value token is total and never raises — a
token that parses as a float is stored as that number, any other token is
stored as the raw string unchanged; `"0.482"` is stored as the number
`0.482` and `"abc"` as the string `"abc"`. -/
theorem C4_coercion_total (tok : Line) :
    (∀ q, parseFloat tok = some q → coerce tok = .num q) ∧
    (parseFloat tok = none → coerce tok = .str tok) ∧
    coerce ("0.482".data) = .num (0.482 : ℚ) ∧
    coerce ("abc".data) = .str ("abc".data) := by
  refine ⟨?_, ?_, ?_, rfl⟩
  · intro q hq
    unfold parseFloat at hq
    unfold coerce
    cases hp : parseFloatParts tok with
    | none =>
      rw [hp] at hq
      simp at hq
    | some p =>
      rw [hp] at hq
      have hpq : partsToRat p = q := by simpa using hq
      simp only [hp]
      rw [hpq]
  · intro hq
    unfold parseFloat at hq
    unfold coerce
    cases hp : parseFloatParts tok with
    | none => simp only [hp]
    | some p =>
      rw [hp] at hq
      simp at hq
  · have h1 : coerce ("0.482".data) = .num (partsToRat (false, 0, 482, 3, 0)) := rfl
    have h2 : partsToRat (false, 0, 482, 3, 0) = (0.482 : ℚ) := by
      norm_num [partsToRat]
    rw [h1, h2]

/-- Witness for C4 at the concrete tokens `"100"` and `"abc"`. -/
theorem C4_coercion_total_witness :
    parseFloat ("100".data) = some (partsToRat (false, 100, 0, 0, 0)) ∧
    coerce ("100".data) = .num (partsToRat (false, 100, 0, 0, 0)) ∧
    parseFloat ("abc".data) = none ∧
    coerce ("abc".data) = .str ("abc".data) :=
  ⟨rfl, (C4_coercion_total ("100".data)).1 _ rfl, rfl,
    (C4_coercion_total ("abc".data)).2.1 rfl⟩
/-- Record-marker line of the second concrete record for sample `A.bam`. -/
def lineB1 : Line := "INFO net.sf.picard.sam.MarkDuplicates INPUT=[/data/runB/A.bam]".data

/-- Value row of the second concrete record for sample `A.bam`. -/
def lineBv : Line := "libA2\t0.5".data

/-- Concrete second document carrying a record for the same sample `A.bam`. -/
def docA2 : List Line := [lineB1, lineA2, lineAk, lineBv]

/-- C5: when two records (here, in two documents) produce the same sample
identifier, the final map holds exactly one entry for it and the second
record's zip fully replaces the first — last-write-wins, no merging of
fields, and no error is raised for the collision. -/
theorem C5_last_write_wins (clean : Line → Line)
    (l1 l2 kl vl path l1b l2b klb vlb pathb : Line)
    (a1 : containsSub markerMD l1 = true)
    (a2 : containsSub tokenINPUT l1 = true)
    (a3 : inputSearch l1 = some path)
    (a4 : (containsSub markerDM l1 && containsSub markerMC l1) = false)
    (a5 : (containsSub markerMD l2 && containsSub tokenINPUT l2) = false)
    (a6 : containsSub markerDM l2 = true)
    (a7 : containsSub markerMC l2 = true)
    (a8 : (splitTab kl).length ≤ (splitTab vl).length)
    (b1 : containsSub markerMD l1b = true)
    (b2 : containsSub tokenINPUT l1b = true)
    (b3 : inputSearch l1b = some pathb)
    (b4 : (containsSub markerDM l1b && containsSub markerMC l1b) = false)
    (b5 : (containsSub markerMD l2b && containsSub tokenINPUT l2b) = false)
    (b6 : containsSub markerDM l2b = true)
    (b7 : containsSub markerMC l2b = true)
    (b8 : (splitTab klb).length ≤ (splitTab vlb).length)
    (hsame : clean (basename pathb) = clean (basename path)) :
    parseAll clean [[l1, l2, kl, vl], [l1b, l2b, klb, vlb]] =
      .ok [(clean (basename path), specZip (splitTab klb) (splitTab vlb))] := by
  have r1 := parse_single_record clean l1 l2 kl vl path [] a1 a2 a3 a4 a5 a6 a7 a8
  have r2 := parse_single_record clean l1b l2b klb vlb pathb
    (dinsert [] (clean (basename path)) (specZip (splitTab kl) (splitTab vl)))
    b1 b2 b3 b4 b5 b6 b7 b8
  rw [hsame] at r2
  unfold parseAll
  rw [parseDocs]
  simp only [r1]
  rw [parseDocs]
  simp only [r2]
  rw [parseDocs]
  rw [dinsert_dinsert_self]
  rfl

/-- Witness for C5 at the concrete documents `docA` and `docA2`, both for
sample `A.bam`. -/
theorem C5_last_write_wins_witness :
    containsSub markerMD lineA1 = true ∧
    containsSub tokenINPUT lineA1 = true ∧
    inputSearch lineA1 = some ("/data/runA/A.bam".data) ∧
    (containsSub markerDM lineA1 && containsSub markerMC lineA1) = false ∧
    (containsSub markerMD lineA2 && containsSub tokenINPUT lineA2) = false ∧
    containsSub markerDM lineA2 = true ∧
    containsSub markerMC lineA2 = true ∧
    (splitTab lineAk).length ≤ (splitTab lineAv).length ∧
    containsSub markerMD lineB1 = true ∧
    containsSub tokenINPUT lineB1 = true ∧
    inputSearch lineB1 = some ("/data/runB/A.bam".data) ∧
    (containsSub markerDM lineB1 && containsSub markerMC lineB1) = false ∧
    (splitTab lineAk).length ≤ (splitTab lineBv).length ∧
    cleanId (basename ("/data/runB/A.bam".data)) = cleanId (basename ("/data/runA/A.bam".data)) ∧
    parseAll cleanId [docA, docA2] =
      .ok [(cleanId (basename ("/data/runA/A.bam".data)),
        specZip (splitTab lineAk) (splitTab lineBv))] :=
  ⟨rfl, rfl, rfl, rfl, rfl, rfl, rfl, by decide, rfl, rfl, rfl, rfl, by decide, rfl,
    C5_last_write_wins cleanId lineA1 lineA2 lineAk lineAv ("/data/runA/A.bam".data)
      lineB1 lineA2 lineAk lineBv ("/data/runB/A.bam".data)
      rfl rfl rfl rfl rfl rfl rfl (by decide)
      rfl rfl rfl rfl rfl rfl rfl (by decide) rfl⟩

/-- C6: the report-absence signal (`raise UserWarning`) fires exactly when
the final map is empty; in the concrete two-document run where `docA` yields
sample `A.bam` and `docBad`'s record-marker line has an `INPUT=[...]`
pattern that fails to match, the final map holds exactly `A.bam` and the
signal is not raised; a run over zero documents leaves the map empty and the
signal fires. -/
theorem C6_report_absence :
    (∀ data : MetricsBySample, raisesUserWarning data = true ↔ data = []) ∧
    parseAll cleanId [docA, docBad] = .ok [(nmA, smA)] ∧
    raisesUserWarning [(nmA, smA)] = false ∧
    parseAll cleanId [] = .ok [] ∧
    raisesUserWarning [] = true := by
  refine ⟨?_, rfl, rfl, rfl, rfl⟩
  intro data
  unfold raisesUserWarning
  cases data with
  | nil => simp
  | cons p rest => simp
/-- C7: for a sample whose (otherwise numeric) metrics lack one of the five
required source fields, the derived-field computation for that sample
propagates the lookup failure `KeyError` — it is fatal for that sample's
derivation and no zero is silently substituted for the missing field. -/
theorem C7_missing_source_field (sm : SampleMetrics)
    (hnum : numericOnly sm)
    (hmiss : dlookup sm UNPAIRED_READS_EXAMINED = none ∨
      dlookup sm UNPAIRED_READ_DUPLICATES = none ∨
      dlookup sm READ_PAIR_DUPLICATES = none ∨
      dlookup sm READ_PAIR_OPTICAL_DUPLICATES = none ∨
      dlookup sm READ_PAIRS_EXAMINED = none) :
    (deriveSample sm).2 = some .keyError := by
  rcases h1 : deriveStmt sm UNPAIRED_READ_UNIQUE UNPAIRED_READS_EXAMINED
    UNPAIRED_READ_DUPLICATES with ⟨sm1, oe1⟩
  cases oe1 with
  | some e =>
    obtain ⟨hsm1, he, _⟩ := deriveStmt_some_inv_numeric sm sm1 _ _ _ e hnum h1
    unfold deriveSample
    simp only [h1, he]
  | none =>
    obtain ⟨a, b, ha, hb, hsm1⟩ := deriveStmt_none_inv sm sm1 _ _ _ h1
    have hnum1 : numericOnly sm1 := hsm1 ▸ numericOnly_dinsert sm _ _ hnum
    have m3 : dlookup sm1 READ_PAIR_DUPLICATES = dlookup sm READ_PAIR_DUPLICATES := by
      rw [hsm1]
      exact dlookup_dinsert_ne _ _ _ _ (by decide)
    have m4 : dlookup sm1 READ_PAIR_OPTICAL_DUPLICATES =
        dlookup sm READ_PAIR_OPTICAL_DUPLICATES := by
      rw [hsm1]
      exact dlookup_dinsert_ne _ _ _ _ (by decide)
    rcases h2 : deriveStmt sm1 READ_PAIR_NOT_OPTICAL_DUPLICATES READ_PAIR_DUPLICATES
      READ_PAIR_OPTICAL_DUPLICATES with ⟨sm2, oe2⟩
    cases oe2 with
    | some e =>
      obtain ⟨hsm2, he, _⟩ := deriveStmt_some_inv_numeric sm1 sm2 _ _ _ e hnum1 h2
      unfold deriveSample
      simp only [h1, h2, he]
    | none =>
      obtain ⟨c, d, hc, hd, hsm2⟩ := deriveStmt_none_inv sm1 sm2 _ _ _ h2
      have hnum2 : numericOnly sm2 := hsm2 ▸ numericOnly_dinsert sm1 _ _ hnum1
      have m5 : dlookup sm2 READ_PAIRS_EXAMINED = dlookup sm READ_PAIRS_EXAMINED := by
        rw [hsm2, hsm1]
        rw [dlookup_dinsert_ne _ _ _ _ (by decide), dlookup_dinsert_ne _ _ _ _ (by decide)]
      have m3b : dlookup sm2 READ_PAIR_DUPLICATES = dlookup sm READ_PAIR_DUPLICATES := by
        rw [hsm2]
        rw [dlookup_dinsert_ne _ _ _ _ (by decide)]
        exact m3
      rcases h3 : deriveStmt sm2 READ_PAIR_UNIQUE READ_PAIRS_EXAMINED
        READ_PAIR_DUPLICATES with ⟨sm3, oe3⟩
      cases oe3 with
      | some e =>
        obtain ⟨hsm3, he, _⟩ := deriveStmt_some_inv_numeric sm2 sm3 _ _ _ e hnum2 h3
        unfold deriveSample
        simp only [h1, h2, h3, he]
      | none =>
        obtain ⟨x, y, hx, hy, _⟩ := deriveStmt_none_inv sm2 sm3 _ _ _ h3
        rw [m5] at hx
        rw [m3b] at hy
        rw [m3] at hc
        rw [m4] at hd
        rcases hmiss with h | h | h | h | h
        · rw [h] at ha
          simp at ha
        · rw [h] at hb
          simp at hb
        · rw [h] at hc
          simp at hc
        · rw [h] at hd
          simp at hd
        · rw [h] at hx
          simp at hx

/-- Witness for C7 at the concrete sample `smMissing`, which lacks
`READ_PAIR_DUPLICATES`. -/
theorem C7_missing_source_field_witness :
    numericOnly smMissing ∧
    dlookup smMissing READ_PAIR_DUPLICATES = none ∧
    (deriveSample smMissing).2 = some .keyError :=
  ⟨by unfold numericOnly; decide, rfl,
    C7_missing_source_field smMissing (by unfold numericOnly; decide)
      (Or.inr (Or.inr (Or.inl rfl)))⟩

/-- C8: the View A summary scalar for a sample with a numeric
`PERCENT_DUPLICATION` field is that value times `100`, stored under the
sample's identifier; a sample with `PERCENT_DUPLICATION = 0.25` yields the
scalar `25`. -/
theorem C8_viewA_scalar (data : MetricsBySample) (rows : List (Line × ℚ))
    (sn : Line) (sm : SampleMetrics) (q : ℚ)
    (hrows : picard_stats_table data = .ok rows)
    (hsn : dlookup data sn = some sm)
    (hq : dlookup sm PERCENT_DUPLICATION = some (.num q)) :
    dlookup rows sn = some (q * 100) ∧
    percentScalar smA = .ok 25 := by
  refine ⟨stats_table_lookup data rows sn sm q hrows hsn hq, ?_⟩
  have h1 : percentScalar smA = .ok (partsToRat (false, 0, 25, 2, 0) * 100) := rfl
  have h2 : partsToRat (false, 0, 25, 2, 0) * 100 = 25 := by
    norm_num [partsToRat]
  rw [h1, h2]

/-- Witness for C8 at the concrete one-sample map for `A.bam`. -/
theorem C8_viewA_scalar_witness :
    picard_stats_table [(nmA, smA)] =
      .ok [(nmA, partsToRat (false, 0, 25, 2, 0) * 100)] ∧
    dlookup [(nmA, smA)] nmA = some smA ∧
    dlookup smA PERCENT_DUPLICATION = some (.num (partsToRat (false, 0, 25, 2, 0))) ∧
    dlookup [(nmA, partsToRat (false, 0, 25, 2, 0) * 100)] nmA =
      some (partsToRat (false, 0, 25, 2, 0) * 100) :=
  ⟨rfl, rfl, rfl,
    (C8_viewA_scalar [(nmA, smA)] _ nmA smA _ rfl rfl rfl).1⟩

/-- C9: a well-formed record whose tab-separated value row carries fewer
tokens than its header row makes the extractor raise an uncaught
index-out-of-range error (only the numeric-parse failure is caught). -/
theorem C9_short_value_row (clean : Line → Line) (l1 l2 kl vl path : Line)
    (data : MetricsBySample)
    (h1 : containsSub markerMD l1 = true)
    (h2 : containsSub tokenINPUT l1 = true)
    (h3 : inputSearch l1 = some path)
    (h4 : (containsSub markerDM l1 && containsSub markerMC l1) = false)
    (h5 : (containsSub markerMD l2 && containsSub tokenINPUT l2) = false)
    (h6 : containsSub markerDM l2 = true)
    (h7 : containsSub markerMC l2 = true)
    (hlen : (splitTab vl).length < (splitTab kl).length) :
    parse_picard_dupMetrics clean [l1, l2, kl, vl] data = .error .indexError := by
  unfold parse_picard_dupMetrics
  exact parseLoop_record_short clean l1 l2 kl vl path [] none data
    h1 h2 h3 h4 h5 h6 h7 hlen

/-- Witness for C9 at a concrete record whose value row has one token but
whose header row has two. -/
theorem C9_short_value_row_witness :
    (splitTab ("libA".data)).length < (splitTab lineAk).length ∧
    parse_picard_dupMetrics cleanId [lineA1, lineA2, lineAk, ("libA".data)] [] =
      .error .indexError :=
  ⟨by decide,
    C9_short_value_row cleanId lineA1 lineA2 lineAk ("libA".data)
      ("/data/runA/A.bam".data) [] rfl rfl rfl rfl rfl rfl rfl (by decide)⟩

/-- C10 counterexample: for a sample carrying the two unpaired-read source
fields but missing `READ_PAIR_DUPLICATES`, the loop still adds the first
derived field `UNPAIRED_READ_UNIQUE` before aborting, so derived fields ARE
(partially) added for the offending sample. -/
theorem C10_partial_derivation_counterexample :
    deriveAll [("S1".data, smMissing)] =
      ([("S1".data, smMissing ++ [(UNPAIRED_READ_UNIQUE, .num (100 - 10))])],
        some .keyError) ∧
    dlookup (smMissing ++ [(UNPAIRED_READ_UNIQUE, .num (100 - 10))])
      UNPAIRED_READ_UNIQUE ≠ none :=
  ⟨rfl, by decide⟩

/-- C10 (amended): when one sample's derivation fails, the whole loop aborts
at that sample — derived fields whose statements precede the failing lookup
remain added for it, nothing further is added for it, and every sample not
yet visited by the loop is left entirely untouched (no per-sample
skip-and-continue). -/
theorem C10_abort_amended (s : Line) (sm : SampleMetrics) (e : AggErr)
    (pre post : MetricsBySample)
    (herr : (deriveSample sm).2 = some e)
    (hpre : ∀ p ∈ pre, (deriveSample p.2).2 = none) :
    deriveAll (pre ++ (s, sm) :: post) =
      (pre.map (fun p => (p.1, (deriveSample p.2).1)) ++
        (s, (deriveSample sm).1) :: post, some e) :=
  deriveAll_abort s sm e herr pre post hpre

/-- Witness for the amended C10: the failing sample `S1` keeps its partial
derivation and the unvisited sample `S2` is untouched. -/
theorem C10_abort_amended_witness :
    (deriveSample smMissing).2 = some .keyError ∧
    deriveAll [("S1".data, smMissing), ("S2".data, smFive)] =
      ([("S1".data, (deriveSample smMissing).1), ("S2".data, smFive)],
        some .keyError) :=
  ⟨rfl, by
    have h := C10_abort_amended ("S1".data) smMissing .keyError []
      [("S2".data, smFive)] rfl (by simp)
    simpa using h⟩

end Picard
